import Mathlib

/-!
Verification of the Kyber-768 KEM composition layer of liboqs-PQ-BRAKE
(`src/kem/kyber/pqcrystals-kyber_kyber768_avx2/kem.c` and
`src/kem/kyber/kem_kyber_768.c`).

Bytes are modelled as `Nat`, byte buffers as `List Nat`.  The underlying
IND-CPA primitive (`indcpa_*`), the hash/KDF primitives (`hash_h`, `hash_g`,
`kdf`) and the constant-time primitives are external collaborators with
fixed-size byte-array contracts; they are abstracted by the `Primitives`
structure, whose `*_len` fields are exactly those contracts.  The parameter
macros from `params.h` (not part of this core) are the `indcpa_sklen`,
`pklen`, `ctlen` fields; `KYBER_SYMBYTES = KYBER_SSBYTES =
KYBER_INDCPA_MSGBYTES = 32` appear literally, just as the C code hardcodes
32-iteration copy loops.

Every read of `n` bytes from a C buffer is modelled as `List.take n`, and a
buffer is the concatenation of the segments written into it.  Uninitialized
stack memory is modelled as an explicit extra argument holding its
indeterminate contents.
-/

namespace PQBrake

/-- External primitive interface: the IND-CPA encryption primitive and the
hash/KDF primitives, as black boxes with fixed-size byte-array contracts
(lengths of outputs), plus the `params.h` length macros of the parameter
set. -/
structure Primitives where
  indcpa_sklen : Nat
  pklen : Nat
  ctlen : Nat
  hash_h : List Nat → List Nat
  hash_g : List Nat → List Nat
  kdf : List Nat → List Nat
  indcpa_enc : List Nat → List Nat → List Nat → List Nat
  indcpa_dec : List Nat → List Nat → List Nat
  indcpa_keypair_based_on_input : List Nat → List Nat × List Nat
  hash_h_len : ∀ x, (hash_h x).length = 32
  hash_g_len : ∀ x, (hash_g x).length = 64
  kdf_len : ∀ x, (kdf x).length = 32
  indcpa_enc_len : ∀ m pk c, (indcpa_enc m pk c).length = ctlen
  indcpa_dec_len : ∀ ct sk, (indcpa_dec ct sk).length = 32
  indcpa_kbi_pk_len : ∀ k, (indcpa_keypair_based_on_input k).1.length = pklen
  indcpa_kbi_sk_len : ∀ k, (indcpa_keypair_based_on_input k).2.length = indcpa_sklen

/-- `KYBER_SECRETKEYBYTES = KYBER_INDCPA_SECRETKEYBYTES +
KYBER_INDCPA_PUBLICKEYBYTES + 2*KYBER_SYMBYTES`. -/
def SECRETKEYBYTES (P : Primitives) : Nat := P.indcpa_sklen + P.pklen + 64

/-- `crypto_kem_keypair` (kem.c lines 24-33).  `indcpa_keypair` and
`randombytes` are external and nondeterministic, so their outputs `pk0`,
`sk0` and `z` are explicit arguments.  The secret key is the concatenation
sk0 | pk | H(pk) | z; the result is (pk, sk, status). -/
def crypto_kem_keypair (P : Primitives) (pk0 sk0 z : List Nat) :
    List Nat × List Nat × Int :=
  (pk0.take P.pklen,
   sk0.take P.indcpa_sklen ++ pk0.take P.pklen
     ++ P.hash_h (pk0.take P.pklen) ++ z.take 32,
   0)

/-- `crypto_kem_keypair_based_on_input` (kem.c lines 50-66): deterministic
key generation; `randombytes` for `z` is commented out and the rejection
seed slot receives `key_input[0..31]` verbatim (via the `hash_of_y_x`
stack buffer, whose first 32 bytes are filled from `key_input` and then
copied with `memcpy(.., KYBER_SYMBYTES)`). -/
def crypto_kem_keypair_based_on_input (P : Primitives) (key_input : List Nat) :
    List Nat × List Nat × Int :=
  ((P.indcpa_keypair_based_on_input key_input).1.take P.pklen,
   (P.indcpa_keypair_based_on_input key_input).2.take P.indcpa_sklen
     ++ (P.indcpa_keypair_based_on_input key_input).1.take P.pklen
     ++ P.hash_h ((P.indcpa_keypair_based_on_input key_input).1.take P.pklen)
     ++ key_input.take 32,
   0)

/-- The `buf` buffer of `crypto_kem_enc` after both `hash_h` writes:
`buf[0:32] = H(random)`, `buf[32:64] = H(pk)`; `mrand` is the output of
the external `randombytes(buf, KYBER_SYMBYTES)` call. -/
def encBuf (P : Primitives) (pk mrand : List Nat) : List Nat :=
  P.hash_h (mrand.take 32) ++ P.hash_h (pk.take P.pklen)

/-- The `kr` buffer of `crypto_kem_enc` after `hash_g(kr, buf, 2*KYBER_SYMBYTES)`. -/
def encKr (P : Primitives) (pk mrand : List Nat) : List Nat :=
  P.hash_g ((encBuf P pk mrand).take 64)

/-- The ciphertext written by `indcpa_enc(ct, buf, pk, kr+KYBER_SYMBYTES)`
inside `crypto_kem_enc`: message = `buf[0:32]`, coins = `kr[32:64]`. -/
def encCt (P : Primitives) (pk mrand : List Nat) : List Nat :=
  P.indcpa_enc ((encBuf P pk mrand).take 32) (pk.take P.pklen)
    (((encKr P pk mrand).drop 32).take 32)

/-- `crypto_kem_enc` (kem.c lines 83-107): returns (ct, ss, status) with
`ss = KDF(kr[0:32] || H(ct))`. -/
def crypto_kem_enc (P : Primitives) (pk mrand : List Nat) :
    List Nat × List Nat × Int :=
  (encCt P pk mrand,
   P.kdf (((encKr P pk mrand).take 32
     ++ P.hash_h ((encCt P pk mrand).take P.ctlen)).take 64),
   0)

/-- `crypto_kem_enc_custom_secret_CPA` (kem.c lines 126-166).  Only
`buf[0:32]` is initialized (from `input_message`) and the `kr` buffer is
never written at all, so `buf[32:64]` and the whole of `kr` hold
indeterminate stack contents, modelled by the extra arguments `bufJunk`
(32 bytes) and `krJunk` (64 bytes).  `indcpa_enc` receives
`kr+KYBER_SYMBYTES`, i.e. the uninitialized `krJunk[32:64]`, as coins,
and `memcpy(ss, buf, 2*KYBER_SYMBYTES)` copies all 64 bytes of `buf`
into `ss`. -/
def crypto_kem_enc_custom_secret_CPA (P : Primitives)
    (input_message pk bufJunk krJunk : List Nat) :
    List Nat × List Nat × Int :=
  (P.indcpa_enc (input_message.take 32) (pk.take P.pklen)
     ((krJunk.drop 32).take 32),
   input_message.take 32 ++ bufJunk.take 32,
   0)

/-- The `buf` buffer of `crypto_kem_enc_custom_secret_CCA` after the two
`hash_h` writes: `buf[0:32] = H(input_message[0:32])`, `buf[32:64] = H(pk)`
(kem.c lines 198-216). -/
def encCCABuf (P : Primitives) (input_message pk : List Nat) : List Nat :=
  P.hash_h (input_message.take 32) ++ P.hash_h (pk.take P.pklen)

/-- The `kr` buffer of `crypto_kem_enc_custom_secret_CCA`. -/
def encCCAKr (P : Primitives) (input_message pk : List Nat) : List Nat :=
  P.hash_g ((encCCABuf P input_message pk).take 64)

/-- The ciphertext of `crypto_kem_enc_custom_secret_CCA`. -/
def encCCACt (P : Primitives) (input_message pk : List Nat) : List Nat :=
  P.indcpa_enc ((encCCABuf P input_message pk).take 32) (pk.take P.pklen)
    (((encCCAKr P input_message pk).drop 32).take 32)

/-- `crypto_kem_enc_custom_secret_CCA` (kem.c lines 185-241): the standard
pipeline with `input_message` in place of the `randombytes` output. -/
def crypto_kem_enc_custom_secret_CCA (P : Primitives)
    (input_message pk : List Nat) : List Nat × List Nat × Int :=
  (encCCACt P input_message pk,
   P.kdf (((encCCAKr P input_message pk).take 32
     ++ P.hash_h ((encCCACt P input_message pk).take P.ctlen)).take 64),
   0)

/-- The `buf` buffer of `crypto_kem_dec` after `indcpa_dec` and the
`memcpy` of the stored `H(pk)` (`sk + KYBER_SECRETKEYBYTES -
2*KYBER_SYMBYTES`) (kem.c lines 271-274). -/
def decBuf (P : Primitives) (ct sk : List Nat) : List Nat :=
  (P.indcpa_dec (ct.take P.ctlen) (sk.take P.indcpa_sklen)).take 32
    ++ (sk.drop (SECRETKEYBYTES P - 64)).take 32

/-- The `kr` buffer of `crypto_kem_dec` after `hash_g`. -/
def decKr (P : Primitives) (ct sk : List Nat) : List Nat :=
  P.hash_g ((decBuf P ct sk).take 64)

/-- The re-encryption `cmp` buffer of `crypto_kem_dec` (kem.c line 278):
`indcpa_enc(cmp, buf, pk, kr+KYBER_SYMBYTES)` where `pk = sk +
KYBER_INDCPA_SECRETKEYBYTES`. -/
def decCmp (P : Primitives) (ct sk : List Nat) : List Nat :=
  P.indcpa_enc ((decBuf P ct sk).take 32) ((sk.drop P.indcpa_sklen).take P.pklen)
    (((decKr P ct sk).drop 32).take 32)

/-- `fail = verify(ct, cmp, KYBER_CIPHERTEXTBYTES)` (kem.c line 280):
nonzero exactly when the first `KYBER_CIPHERTEXTBYTES` bytes differ. -/
def decFail (P : Primitives) (ct sk : List Nat) : Bool :=
  decide (¬ ct.take P.ctlen = (decCmp P ct sk).take P.ctlen)

/-- `crypto_kem_dec` (kem.c lines 260-292): `kr[32:64]` is overwritten with
`H(ct)`, `cmov(kr, sk+KYBER_SECRETKEYBYTES-KYBER_SYMBYTES, KYBER_SYMBYTES,
fail)` replaces `kr[0:32]` with the rejection seed `z` on failure, and
`ss = KDF(kr)`; the status is always 0. -/
def crypto_kem_dec (P : Primitives) (ct sk : List Nat) : List Nat × Int :=
  (P.kdf ((((if decFail P ct sk then (sk.drop (SECRETKEYBYTES P - 32)).take 32
      else (decKr P ct sk).take 32)
    ++ P.hash_h (ct.take P.ctlen)).take 64)),
   0)

/-- `crypto_kem_dec_custom_secret_CPA` (kem.c lines 311-331): raw
`indcpa_dec` into `buf[0:32]`, then `memcpy(ss, buf, 2*KYBER_SYMBYTES)` —
again 64 bytes including the uninitialized `buf[32:64]` (`bufJunk`). -/
def crypto_kem_dec_custom_secret_CPA (P : Primitives)
    (ct sk bufJunk : List Nat) : List Nat × Int :=
  ((P.indcpa_dec (ct.take P.ctlen) (sk.take P.indcpa_sklen)).take 32
     ++ bufJunk.take 32,
   0)

/-- The `buf` buffer of `crypto_kem_dec_custom_secret_CCA` (kem.c lines
361-373). -/
def decCCABuf (P : Primitives) (ct sk : List Nat) : List Nat :=
  (P.indcpa_dec (ct.take P.ctlen) (sk.take P.indcpa_sklen)).take 32
    ++ (sk.drop (SECRETKEYBYTES P - 64)).take 32

/-- The `kr` buffer of `crypto_kem_dec_custom_secret_CCA`. -/
def decCCAKr (P : Primitives) (ct sk : List Nat) : List Nat :=
  P.hash_g ((decCCABuf P ct sk).take 64)

/-- The re-encryption buffer of `crypto_kem_dec_custom_secret_CCA`
(kem.c line 377). -/
def decCCACmp (P : Primitives) (ct sk : List Nat) : List Nat :=
  P.indcpa_enc ((decCCABuf P ct sk).take 32)
    ((sk.drop P.indcpa_sklen).take P.pklen)
    (((decCCAKr P ct sk).drop 32).take 32)

/-- The `verify` result in `crypto_kem_dec_custom_secret_CCA` (kem.c
line 379). -/
def decCCAFail (P : Primitives) (ct sk : List Nat) : Bool :=
  decide (¬ ct.take P.ctlen = (decCCACmp P ct sk).take P.ctlen)

/-- `crypto_kem_dec_custom_secret_CCA` (kem.c lines 350-398): the full
re-encryption check with implicit rejection, statement for statement the
same as `crypto_kem_dec`. -/
def crypto_kem_dec_custom_secret_CCA (P : Primitives) (ct sk : List Nat) :
    List Nat × Int :=
  (P.kdf ((((if decCCAFail P ct sk then (sk.drop (SECRETKEYBYTES P - 32)).take 32
      else (decCCAKr P ct sk).take 32)
    ++ P.hash_h (ct.take P.ctlen)).take 64)),
   0)

/-! ## Dispatch layer (`kem_kyber_768.c`)

The dispatch functions are built from preprocessor conditionals
(`OQS_ENABLE_KEM_kyber_768_avx2`, `OQS_ENABLE_KEM_kyber_768_aarch64`,
`OQS_DIST_BUILD`) and runtime CPU-extension checks; both are modelled by a
`BuildConfig` record, and each dispatch function is embedded as the
backend call it resolves to (a `KemCall` descriptor carrying the
arguments that are forwarded). -/

/-- Build-time macros and runtime CPU extension flags of the dispatch
layer. -/
structure BuildConfig where
  avx2_enabled : Bool
  aarch64_enabled : Bool
  dist_build : Bool
  cpu_avx2 : Bool
  cpu_bmi2 : Bool
  cpu_popcnt : Bool
  cpu_neon : Bool

/-- The runtime test `OQS_CPU_has_extension(AVX2) && ... (BMI2) && ...
(POPCNT)` guarding the accelerated branch. -/
def avx2CpuOK (c : BuildConfig) : Bool := c.cpu_avx2 && c.cpu_bmi2 && c.cpu_popcnt

/-- Descriptor of the backend function a dispatch wrapper resolves to,
carrying the message-like arguments it forwards (the buffer pointers
common to all branches are left implicit). -/
inductive KemCall where
  | avx2EncCustomCPA (msg : List Nat)
  | avx2EncCustomCCA (msg : List Nat)
  | avx2Enc
  | refEnc
  | aarch64Enc
  | avx2Dec
  | avx2DecCustomCPA
  | avx2DecCustomCCA
  | refDec
  | aarch64Dec
  | avx2KeypairBasedOnInput (key_input : List Nat)
  | refKeypair
  | avx2Keypair
  | aarch64Keypair
deriving DecidableEq

/-- `OQS_KEM_kyber_768_encaps_custom_secret_CPA` (kem_kyber_768.c lines
125-149) as the backend call it resolves to under a given build
configuration. -/
def encapsCustomCPACall (c : BuildConfig) (input_message : List Nat) : KemCall :=
  if c.avx2_enabled then
    if c.dist_build then
      if avx2CpuOK c then .avx2EncCustomCPA input_message else .refEnc
    else .avx2EncCustomCPA input_message
  else if c.aarch64_enabled then
    if c.dist_build then
      if c.cpu_neon then .aarch64Enc else .refEnc
    else .aarch64Enc
  else .refEnc

/-- `OQS_KEM_kyber_768_encaps_custom_secret_CCA` (kem_kyber_768.c lines
151-175). -/
def encapsCustomCCACall (c : BuildConfig) (input_message : List Nat) : KemCall :=
  if c.avx2_enabled then
    if c.dist_build then
      if avx2CpuOK c then .avx2EncCustomCCA input_message else .refEnc
    else .avx2EncCustomCCA input_message
  else if c.aarch64_enabled then
    if c.dist_build then
      if c.cpu_neon then .aarch64Enc else .refEnc
    else .aarch64Enc
  else .refEnc

/-- `OQS_KEM_kyber_768_decaps_custom_secret_CPA` (kem_kyber_768.c lines
203-227). -/
def decapsCustomCPACall (c : BuildConfig) : KemCall :=
  if c.avx2_enabled then
    if c.dist_build then
      if avx2CpuOK c then .avx2DecCustomCPA else .refDec
    else .avx2DecCustomCPA
  else if c.aarch64_enabled then
    if c.dist_build then
      if c.cpu_neon then .aarch64Dec else .refDec
    else .aarch64Dec
  else .refDec

/-- `OQS_KEM_kyber_768_decaps_custom_secret_CCA` (kem_kyber_768.c lines
229-253). -/
def decapsCustomCCACall (c : BuildConfig) : KemCall :=
  if c.avx2_enabled then
    if c.dist_build then
      if avx2CpuOK c then .avx2DecCustomCCA else .refDec
    else .avx2DecCustomCCA
  else if c.aarch64_enabled then
    if c.dist_build then
      if c.cpu_neon then .aarch64Dec else .refDec
    else .aarch64Dec
  else .refDec

/-- `OQS_KEM_kyber_768_keypair_based_on_input` (kem_kyber_768.c lines
85-97).  The whole body sits inside `#if
defined(OQS_ENABLE_KEM_kyber_768_avx2)`; when that macro is absent the
function has no statement and no return on any path, modelled as `none`
(no defined status value). -/
def keypairBasedOnInputCall (c : BuildConfig) (key_input : List Nat) :
    Option KemCall :=
  if c.avx2_enabled then
    some (if c.dist_build then
        if avx2CpuOK c then .avx2KeypairBasedOnInput key_input else .refKeypair
      else .avx2KeypairBasedOnInput key_input)
  else none

/-- Modelled from the spec: the reference backend's decapsulation
(`pqcrystals_kyber768_ref_dec`) is not part of this core; per spec section
4.1 every compliant backend implements the byte-identical section 4.2
construction, so it is the same function as the avx2 `crypto_kem_dec`. -/
def pqcrystals_kyber768_ref_dec (P : Primitives) (ct sk : List Nat) :
    List Nat × Int :=
  crypto_kem_dec P ct sk

/-- Modelled from the spec: the aarch64 backend's decapsulation
(`PQCLEAN_KYBER768_AARCH64_crypto_kem_dec`), likewise byte-identical to
the section 4.2 construction. -/
def aarch64_crypto_kem_dec (P : Primitives) (ct sk : List Nat) :
    List Nat × Int :=
  crypto_kem_dec P ct sk

/-- `OQS_KEM_kyber_768_decaps` (kem_kyber_768.c lines 177-201): each
branch forwards to a backend decapsulation and casts its `return 0` to
the status; `OQS_SUCCESS = 0` per the surrounding library's convention
(the kem.c header comments document `Returns 0 (success)`). -/
def OQS_KEM_kyber_768_decaps (P : Primitives) (c : BuildConfig)
    (ct sk : List Nat) : List Nat × Int :=
  if c.avx2_enabled then
    if c.dist_build then
      if avx2CpuOK c then crypto_kem_dec P ct sk
      else pqcrystals_kyber768_ref_dec P ct sk
    else crypto_kem_dec P ct sk
  else if c.aarch64_enabled then
    if c.dist_build then
      if c.cpu_neon then aarch64_crypto_kem_dec P ct sk
      else pqcrystals_kyber768_ref_dec P ct sk
    else aarch64_crypto_kem_dec P ct sk
  else pqcrystals_kyber768_ref_dec P ct sk

/-! ## Concrete primitive instances

Small executable instances of the external-primitive contract, used to
evaluate the embedded functions on concrete inputs.  `pad32`/`pad64`
truncate or zero-pad to the contract lengths. -/

/-- Truncate or zero-pad a byte list to 32 bytes. -/
def pad32 (x : List Nat) : List Nat := (x ++ List.replicate 32 0).take 32

/-- Truncate or zero-pad a byte list to 64 bytes. -/
def pad64 (x : List Nat) : List Nat := (x ++ List.replicate 64 0).take 64

theorem pad32_length (x : List Nat) : (pad32 x).length = 32 := by
  simp [pad32]

theorem pad64_length (x : List Nat) : (pad64 x).length = 64 := by
  simp [pad64]

theorem pad32_of_length (x : List Nat) (h : x.length = 32) : pad32 x = x := by
  simp [pad32, List.take_left' h]

/-- Instance whose encryption embeds the 32-byte message into the
ciphertext and whose decryption recovers it (a correct toy PKE with
`ctlen = 32`). -/
def ToyA : Primitives where
  indcpa_sklen := 0
  pklen := 0
  ctlen := 32
  hash_h := pad32
  hash_g := pad64
  kdf := pad32
  indcpa_enc := fun m _ _ => pad32 m
  indcpa_dec := fun ct _ => pad32 ct
  indcpa_keypair_based_on_input := fun _ => ([], [])
  hash_h_len := pad32_length
  hash_g_len := pad64_length
  kdf_len := pad32_length
  indcpa_enc_len := fun m _ _ => pad32_length m
  indcpa_dec_len := fun ct _ => pad32_length ct
  indcpa_kbi_pk_len := fun _ => rfl
  indcpa_kbi_sk_len := fun _ => rfl

/-- Instance whose decryption is constant, so that re-encryption of a
suitable ciphertext fails the `verify` check. -/
def ToyB : Primitives where
  indcpa_sklen := 0
  pklen := 0
  ctlen := 32
  hash_h := pad32
  hash_g := pad64
  kdf := pad32
  indcpa_enc := fun m _ _ => pad32 m
  indcpa_dec := fun _ _ => List.replicate 32 0
  indcpa_keypair_based_on_input := fun _ => ([], [])
  hash_h_len := pad32_length
  hash_g_len := pad64_length
  kdf_len := pad32_length
  indcpa_enc_len := fun m _ _ => pad32_length m
  indcpa_dec_len := fun _ _ => by simp
  indcpa_kbi_pk_len := fun _ => rfl
  indcpa_kbi_sk_len := fun _ => rfl

/-- Instance whose encryption copies the coins into the ciphertext, so
that the ciphertext depends on the coins argument. -/
def ToyC : Primitives where
  indcpa_sklen := 0
  pklen := 0
  ctlen := 32
  hash_h := pad32
  hash_g := pad64
  kdf := pad32
  indcpa_enc := fun _ _ coins => pad32 coins
  indcpa_dec := fun ct _ => pad32 ct
  indcpa_keypair_based_on_input := fun _ => ([], [])
  hash_h_len := pad32_length
  hash_g_len := pad64_length
  kdf_len := pad32_length
  indcpa_enc_len := fun _ _ coins => pad32_length coins
  indcpa_dec_len := fun ct _ => pad32_length ct
  indcpa_kbi_pk_len := fun _ => rfl
  indcpa_kbi_sk_len := fun _ => rfl

/-! ## Round-trip helper -/

/-- Core round-trip lemma: with a secret key produced by
`crypto_kem_keypair` and under the external PKE correctness contract,
decapsulation of an encapsulated ciphertext reproduces the encapsulated
shared secret (the `verify` check passes, so `cmov` leaves `kr`
untouched). -/
theorem roundtrip_aux (P : Primitives) (pk0 sk0 z mrand : List Nat)
    (hsk0 : sk0.length = P.indcpa_sklen) (hpk0 : pk0.length = P.pklen)
    (hcorrect : ∀ msg coins, msg.length = 32 → coins.length = 32 →
      P.indcpa_dec ((P.indcpa_enc msg (pk0.take P.pklen) coins).take P.ctlen)
        (sk0.take P.indcpa_sklen) = msg) :
    (crypto_kem_dec P
        (crypto_kem_enc P (crypto_kem_keypair P pk0 sk0 z).1 mrand).1
        (crypto_kem_keypair P pk0 sk0 z).2.1).1
      = (crypto_kem_enc P (crypto_kem_keypair P pk0 sk0 z).1 mrand).2.1 := by
  have hA : (sk0.take P.indcpa_sklen).length = P.indcpa_sklen := by
    simp [hsk0]
  have hB : (pk0.take P.pklen).length = P.pklen := by simp [hpk0]
  set pk := pk0.take P.pklen with hpkdef
  set A := sk0.take P.indcpa_sklen with hAdef
  have hpktake : pk.take P.pklen = pk := List.take_of_length_le (le_of_eq hB)
  set C := P.hash_h pk with hCdef
  have hC : C.length = 32 := P.hash_h_len pk
  set D := z.take 32 with hDdef
  have hkp1 : (crypto_kem_keypair P pk0 sk0 z).1 = pk := rfl
  have hkp2 : (crypto_kem_keypair P pk0 sk0 z).2.1 = A ++ (pk ++ (C ++ D)) := by
    simp [crypto_kem_keypair, List.append_assoc]
  set sk := A ++ (pk ++ (C ++ D)) with hskdef
  have hsk_take : sk.take P.indcpa_sklen = A := List.take_left' hA
  have hsk_drop1 : sk.drop P.indcpa_sklen = pk ++ (C ++ D) := List.drop_left' hA
  have hsk_pk : (sk.drop P.indcpa_sklen).take P.pklen = pk := by
    rw [hsk_drop1]; exact List.take_left' hB
  have hoff1 : SECRETKEYBYTES P - 64 = P.indcpa_sklen + P.pklen := by
    simp [SECRETKEYBYTES]
  have hsk_hash : (sk.drop (SECRETKEYBYTES P - 64)).take 32 = C := by
    rw [hoff1, hskdef, ← List.append_assoc]
    rw [List.drop_left' (by simp [hA, hB])]
    exact List.take_left' hC
  set ct := encCt P pk mrand with hctdef
  have hctlen : ct.length = P.ctlen := P.indcpa_enc_len _ _ _
  have hcttake : ct.take P.ctlen = ct := List.take_of_length_le (le_of_eq hctlen)
  have hmsg : (encBuf P pk mrand).take 32 = P.hash_h (mrand.take 32) :=
    List.take_left' (P.hash_h_len _)
  have hmsglen : (P.hash_h (mrand.take 32)).length = 32 := P.hash_h_len _
  have hcoinlen : (((encKr P pk mrand).drop 32).take 32).length = 32 := by
    simp [P.hash_g_len, encKr]
  have hdec : P.indcpa_dec (ct.take P.ctlen) (sk.take P.indcpa_sklen)
      = P.hash_h (mrand.take 32) := by
    rw [hsk_take, hctdef]
    unfold encCt
    rw [hmsg, hpktake]
    exact hcorrect _ _ hmsglen hcoinlen
  have hdecbuf : decBuf P ct sk = encBuf P pk mrand := by
    unfold decBuf
    rw [hdec, hsk_hash, List.take_of_length_le (le_of_eq hmsglen)]
    unfold encBuf
    rw [hpktake, hCdef]
  have hdeckr : decKr P ct sk = encKr P pk mrand := by
    unfold decKr encKr
    rw [hdecbuf]
  have hcmp : decCmp P ct sk = ct := by
    unfold decCmp
    rw [hdecbuf, hdeckr, hsk_pk, hctdef]
    unfold encCt
    rw [hpktake]
  have hfail : decFail P ct sk = false := by
    unfold decFail
    rw [hcmp]
    simp
  rw [hkp1, hkp2]
  show (crypto_kem_dec P (crypto_kem_enc P pk mrand).1 sk).1
      = (crypto_kem_enc P pk mrand).2.1
  have henc1 : (crypto_kem_enc P pk mrand).1 = ct := rfl
  rw [henc1]
  unfold crypto_kem_dec crypto_kem_enc
  rw [hfail]
  simp [hdeckr, hctdef]

/-- The PKE correctness contract holds for `ToyA` with any key material,
since its toy encryption embeds the message in the ciphertext. -/
theorem toyA_correct (pkArg skArg : List Nat) :
    ∀ msg coins, msg.length = 32 → coins.length = 32 →
      ToyA.indcpa_dec ((ToyA.indcpa_enc msg pkArg coins).take ToyA.ctlen) skArg
        = msg := by
  intro msg coins h1 _
  show pad32 ((pad32 msg).take 32) = msg
  rw [pad32_of_length _ h1, List.take_of_length_le (le_of_eq h1),
    pad32_of_length _ h1]

/-! ## Claims -/

/-- Claim C1: `crypto_kem_enc_custom_secret_CPA` uses the caller's 32-byte
message directly as the plaintext given to `indcpa_enc`, and the 32 bytes
of the returned shared secret equal the message bit-for-bit. -/
theorem c1_cpa_custom_secret_identity (P : Primitives)
    (m pk bufJunk krJunk : List Nat) (hm : m.length = 32) :
    (crypto_kem_enc_custom_secret_CPA P m pk bufJunk krJunk).1
        = P.indcpa_enc (m.take 32) (pk.take P.pklen) ((krJunk.drop 32).take 32)
    ∧ ((crypto_kem_enc_custom_secret_CPA P m pk bufJunk krJunk).2.1).take 32
        = m := by
  refine ⟨rfl, ?_⟩
  show (m.take 32 ++ bufJunk.take 32).take 32 = m
  rw [List.take_left' (by simp [hm])]
  exact List.take_of_length_le (le_of_eq hm)

/-- Witness for C1 at the spec's example message `[0, 1, ..., 31]`. -/
theorem c1_witness :
    (List.range 32).length = 32 ∧
    ((crypto_kem_enc_custom_secret_CPA ToyA (List.range 32) []
        (List.replicate 32 7) (List.replicate 64 9)).2.1).take 32
      = List.range 32 :=
  ⟨by decide,
   (c1_cpa_custom_secret_identity ToyA (List.range 32) []
      (List.replicate 32 7) (List.replicate 64 9) (by decide)).2⟩

/-- Claim C2: for keypairs produced by `crypto_kem_keypair`, decapsulating
the ciphertext of `crypto_kem_enc` returns the same shared secret, under
the external PKE correctness contract for the generated key material. -/
theorem c2_roundtrip (P : Primitives) (pk0 sk0 z mrand : List Nat)
    (hsk0 : sk0.length = P.indcpa_sklen) (hpk0 : pk0.length = P.pklen)
    (hcorrect : ∀ msg coins, msg.length = 32 → coins.length = 32 →
      P.indcpa_dec ((P.indcpa_enc msg (pk0.take P.pklen) coins).take P.ctlen)
        (sk0.take P.indcpa_sklen) = msg) :
    (crypto_kem_dec P
        (crypto_kem_enc P (crypto_kem_keypair P pk0 sk0 z).1 mrand).1
        (crypto_kem_keypair P pk0 sk0 z).2.1).1
      = (crypto_kem_enc P (crypto_kem_keypair P pk0 sk0 z).1 mrand).2.1 :=
  roundtrip_aux P pk0 sk0 z mrand hsk0 hpk0 hcorrect

/-- Witness for C2 with the concrete `ToyA` primitive instance. -/
theorem c2_witness :
    (crypto_kem_dec ToyA
        (crypto_kem_enc ToyA
          (crypto_kem_keypair ToyA [] [] (List.replicate 32 5)).1
          (List.replicate 32 9)).1
        (crypto_kem_keypair ToyA [] [] (List.replicate 32 5)).2.1).1
      = (crypto_kem_enc ToyA
          (crypto_kem_keypair ToyA [] [] (List.replicate 32 5)).1
          (List.replicate 32 9)).2.1 :=
  c2_roundtrip ToyA [] [] (List.replicate 32 5) (List.replicate 32 9)
    rfl rfl (toyA_correct _ _)

/-- Claim C3: when the re-encryption check fails, `crypto_kem_dec` returns
`KDF(z || H(ct))` with `z` the final 32 bytes of `sk` — a deterministic
function of `(sk, ct)` alone. -/
theorem c3_implicit_rejection (P : Primitives) (ct sk : List Nat)
    (hfail : decFail P ct sk = true) :
    (crypto_kem_dec P ct sk).1
      = P.kdf (((sk.drop (SECRETKEYBYTES P - 32)).take 32
          ++ P.hash_h (ct.take P.ctlen)).take 64) := by
  unfold crypto_kem_dec
  rw [hfail]
  simp

/-- Witness for C3: a concrete `(ct, sk)` for `ToyB` on which the
re-encryption check fails. -/
theorem c3_witness :
    decFail ToyB (List.replicate 32 1) (List.replicate 64 0) = true ∧
    (crypto_kem_dec ToyB (List.replicate 32 1) (List.replicate 64 0)).1
      = ToyB.kdf ((((List.replicate 64 0).drop (SECRETKEYBYTES ToyB - 32)).take 32
          ++ ToyB.hash_h ((List.replicate 32 1).take ToyB.ctlen)).take 64) :=
  ⟨by decide,
   c3_implicit_rejection ToyB (List.replicate 32 1) (List.replicate 64 0)
     (by decide)⟩

/-- Claim C4: the CCA custom-secret encapsulation is exactly the standard
pipeline with the caller's message substituted for the sampled randomness,
the CCA custom-secret decapsulation is exactly the standard decapsulation
(full re-encryption check and implicit rejection), and the round trip
reproduces the shared secret of the non-custom pipeline applied to `m`. -/
theorem c4_cca_custom (P : Primitives) (pk0 sk0 z m : List Nat)
    (hsk0 : sk0.length = P.indcpa_sklen) (hpk0 : pk0.length = P.pklen)
    (hcorrect : ∀ msg coins, msg.length = 32 → coins.length = 32 →
      P.indcpa_dec ((P.indcpa_enc msg (pk0.take P.pklen) coins).take P.ctlen)
        (sk0.take P.indcpa_sklen) = msg) :
    (∀ msg pk, crypto_kem_enc_custom_secret_CCA P msg pk
        = crypto_kem_enc P pk msg)
    ∧ (∀ c s, crypto_kem_dec_custom_secret_CCA P c s = crypto_kem_dec P c s)
    ∧ (crypto_kem_dec_custom_secret_CCA P
        (crypto_kem_enc_custom_secret_CCA P m
          (crypto_kem_keypair P pk0 sk0 z).1).1
        (crypto_kem_keypair P pk0 sk0 z).2.1).1
      = (crypto_kem_enc P (crypto_kem_keypair P pk0 sk0 z).1 m).2.1 :=
  ⟨fun _ _ => rfl, fun _ _ => rfl,
   roundtrip_aux P pk0 sk0 z m hsk0 hpk0 hcorrect⟩

/-- Witness for C4 with the concrete `ToyA` primitive instance and the
spec's example message. -/
theorem c4_witness :
    (crypto_kem_dec_custom_secret_CCA ToyA
        (crypto_kem_enc_custom_secret_CCA ToyA (List.range 32)
          (crypto_kem_keypair ToyA [] [] (List.replicate 32 5)).1).1
        (crypto_kem_keypair ToyA [] [] (List.replicate 32 5)).2.1).1
      = (crypto_kem_enc ToyA
          (crypto_kem_keypair ToyA [] [] (List.replicate 32 5)).1
          (List.range 32)).2.1 :=
  (c4_cca_custom ToyA [] [] (List.replicate 32 5) (List.range 32)
    rfl rfl (toyA_correct _ _)).2.2

/-- Every branch of the decapsulation dispatch forwards to the same
construction (the reference and aarch64 backends are byte-identical per
spec section 4.1). -/
theorem OQS_decaps_eq (P : Primitives) (c : BuildConfig) (ct sk : List Nat) :
    OQS_KEM_kyber_768_decaps P c ct sk = crypto_kem_dec P ct sk := by
  unfold OQS_KEM_kyber_768_decaps pqcrystals_kyber768_ref_dec
    aarch64_crypto_kem_dec
  simp

/-- Claim C5: decapsulation always returns status 0 (success) and a
32-byte shared secret, on every input and under every build
configuration; no error is ever signalled. -/
theorem c5_decaps_total (P : Primitives) (c : BuildConfig) (ct sk : List Nat) :
    (OQS_KEM_kyber_768_decaps P c ct sk).2 = 0
    ∧ ((OQS_KEM_kyber_768_decaps P c ct sk).1).length = 32 := by
  rw [OQS_decaps_eq]
  exact ⟨rfl, P.kdf_len _⟩

/-- Claim C6 (code bug): both CPA custom-secret operations `memcpy`
`2*KYBER_SYMBYTES = 64` bytes into the shared-secret output, although the
output is declared (and allocated by the repository's own test) as
`KYBER_SSBYTES = 32` bytes: the bytes written into `ss` number 64, not
32. -/
theorem c6_ss_overflow :
    ((crypto_kem_enc_custom_secret_CPA ToyA (List.range 32) []
        (List.replicate 32 7) (List.replicate 64 9)).2.1).length = 64
    ∧ ((crypto_kem_dec_custom_secret_CPA ToyA (List.replicate 32 1)
        (List.replicate 64 0) (List.replicate 32 7)).1).length = 64 := by
  constructor <;> decide

/-- Claim C7: `crypto_kem_keypair_based_on_input` is a deterministic
function of the caller-supplied input, and the rejection seed stored in
the final 32 bytes of the secret key is `key_input[0..31]` verbatim. -/
theorem c7_keypair_from_seed (P : Primitives) (k1 k2 : List Nat)
    (h : k1 = k2) :
    crypto_kem_keypair_based_on_input P k1
        = crypto_kem_keypair_based_on_input P k2
    ∧ ((crypto_kem_keypair_based_on_input P k1).2.1).drop
        (SECRETKEYBYTES P - 32) = k1.take 32 := by
  refine ⟨by rw [h], ?_⟩
  have hA : (((P.indcpa_keypair_based_on_input k1).2).take P.indcpa_sklen).length
      = P.indcpa_sklen := by
    simp [P.indcpa_kbi_sk_len]
  have hB : (((P.indcpa_keypair_based_on_input k1).1).take P.pklen).length
      = P.pklen := by
    simp [P.indcpa_kbi_pk_len]
  have hC : (P.hash_h (((P.indcpa_keypair_based_on_input k1).1).take P.pklen)).length
      = 32 := P.hash_h_len _
  have hoff : SECRETKEYBYTES P - 32 = P.indcpa_sklen + P.pklen + 32 := by
    simp [SECRETKEYBYTES]
  show (((P.indcpa_keypair_based_on_input k1).2).take P.indcpa_sklen
      ++ ((P.indcpa_keypair_based_on_input k1).1).take P.pklen
      ++ P.hash_h (((P.indcpa_keypair_based_on_input k1).1).take P.pklen)
      ++ k1.take 32).drop (SECRETKEYBYTES P - 32) = k1.take 32
  rw [hoff]
  exact List.drop_left' (by simp [hA, hB, hC]; omega)

/-- Witness for C7 with the `ToyA` instance and seed `[0, 1, ..., 31]`. -/
theorem c7_witness :
    List.range 32 = List.range 32 ∧
    ((crypto_kem_keypair_based_on_input ToyA (List.range 32)).2.1).drop
        (SECRETKEYBYTES ToyA - 32) = (List.range 32).take 32 :=
  ⟨rfl, (c7_keypair_from_seed ToyA (List.range 32) (List.range 32) rfl).2⟩

/-- Claim C8: when the AVX2 backend is unavailable at run time (DIST build
on a CPU lacking the extensions) or the build is aarch64, every
custom-secret entry point resolves to a standard backend function: the
custom encapsulations resolve to standard randomized encapsulation and
forward nothing of `input_message`, and the custom CPA decapsulation
resolves to a full standard CCA decapsulation; the accelerated target and
the fallback target compute different functions of the same arguments
(exhibited concretely on `ToyA`). -/
theorem c8_dispatch_fallback (c : BuildConfig) (m1 m2 : List Nat)
    (hfb : (c.avx2_enabled = true ∧ c.dist_build = true ∧ avx2CpuOK c = false)
        ∨ (c.avx2_enabled = false ∧ c.aarch64_enabled = true)) :
    (encapsCustomCPACall c m1 = .refEnc ∨ encapsCustomCPACall c m1 = .aarch64Enc)
    ∧ encapsCustomCPACall c m1 = encapsCustomCPACall c m2
    ∧ (encapsCustomCCACall c m1 = .refEnc ∨ encapsCustomCCACall c m1 = .aarch64Enc)
    ∧ encapsCustomCCACall c m1 = encapsCustomCCACall c m2
    ∧ (decapsCustomCPACall c = .refDec ∨ decapsCustomCPACall c = .aarch64Dec)
    ∧ (crypto_kem_enc_custom_secret_CPA ToyA (List.range 32) []
          (List.replicate 32 7) (List.replicate 64 9)).2.1
        ≠ (crypto_kem_enc ToyA [] (List.range 32)).2.1 := by
  have hdiff : (crypto_kem_enc_custom_secret_CPA ToyA (List.range 32) []
          (List.replicate 32 7) (List.replicate 64 9)).2.1
        ≠ (crypto_kem_enc ToyA [] (List.range 32)).2.1 := by decide
  rcases hfb with ⟨h1, h2, h3⟩ | ⟨h1, h2⟩
  · exact ⟨Or.inl (by simp [encapsCustomCPACall, h1, h2, h3]),
      by simp [encapsCustomCPACall, h1, h2, h3],
      Or.inl (by simp [encapsCustomCCACall, h1, h2, h3]),
      by simp [encapsCustomCCACall, h1, h2, h3],
      Or.inl (by simp [decapsCustomCPACall, h1, h2, h3]), hdiff⟩
  · cases hd : c.dist_build <;> cases hn : c.cpu_neon <;>
      refine ⟨?_, ?_, ?_, ?_, ?_, hdiff⟩ <;>
      simp [encapsCustomCPACall, encapsCustomCCACall, decapsCustomCPACall,
        h1, h2, hd, hn]

/-- Witness for C8 at a DIST AVX2 build on a CPU lacking the required
extensions. -/
theorem c8_witness :
    ((BuildConfig.mk true false true false false false false).avx2_enabled = true
      ∧ (BuildConfig.mk true false true false false false false).dist_build = true
      ∧ avx2CpuOK (BuildConfig.mk true false true false false false false) = false)
    ∧ encapsCustomCPACall (BuildConfig.mk true false true false false false false)
        (List.range 32) = .refEnc :=
  ⟨⟨rfl, rfl, rfl⟩,
   ((c8_dispatch_fallback (BuildConfig.mk true false true false false false false)
      (List.range 32) [] (Or.inl ⟨rfl, rfl, rfl⟩)).1).resolve_right (by decide)⟩

/-- Claim C9: `crypto_kem_enc_custom_secret_CPA` passes the never-written
`kr` buffer (offset `KYBER_SYMBYTES`) as the encryption coins, so the
ciphertext is a function of the indeterminate stack contents: two runs
with identical declared inputs `(pk, m)` but different stack contents can
produce different ciphertexts (exhibited on `ToyC`, whose encryption
depends on the coins). -/
theorem c9_uninitialized_coins :
    (∀ (P : Primitives) m pk bufJunk krJunk,
      (crypto_kem_enc_custom_secret_CPA P m pk bufJunk krJunk).1
        = P.indcpa_enc (m.take 32) (pk.take P.pklen) ((krJunk.drop 32).take 32))
    ∧ (crypto_kem_enc_custom_secret_CPA ToyC (List.range 32) []
        (List.replicate 32 7) (List.replicate 64 0)).1
      ≠ (crypto_kem_enc_custom_secret_CPA ToyC (List.range 32) []
        (List.replicate 32 7) (List.replicate 64 1)).1 :=
  ⟨fun _ _ _ _ _ => rfl, by decide⟩

/-- Claim C10: without `OQS_ENABLE_KEM_kyber_768_avx2` the wrapper
`OQS_KEM_kyber_768_keypair_based_on_input` has no statement and no return
on any path (no defined status, modelled as `none`), and in a DIST build
on a CPU lacking the AVX2 extensions it falls back to the standard
randomized keypair, ignoring `key_input`. -/
theorem c10_keypair_dispatch (c : BuildConfig) (k1 k2 : List Nat) :
    (c.avx2_enabled = false → keypairBasedOnInputCall c k1 = none)
    ∧ (c.avx2_enabled = true → c.dist_build = true → avx2CpuOK c = false →
        keypairBasedOnInputCall c k1 = some .refKeypair
        ∧ keypairBasedOnInputCall c k1 = keypairBasedOnInputCall c k2) := by
  constructor
  · intro h1
    simp [keypairBasedOnInputCall, h1]
  · intro h1 h2 h3
    constructor <;> simp [keypairBasedOnInputCall, h1, h2, h3]

/-- Witness for C10: a build without the AVX2 macro yields no call, and a
DIST AVX2 build on a CPU lacking the extensions resolves to the standard
reference keypair. -/
theorem c10_witness :
    keypairBasedOnInputCall (BuildConfig.mk false false false false false false false)
        (List.range 32) = none
    ∧ keypairBasedOnInputCall (BuildConfig.mk true false true false false false false)
        (List.range 32) = some .refKeypair :=
  ⟨(c10_keypair_dispatch (BuildConfig.mk false false false false false false false)
      (List.range 32) []).1 rfl,
   ((c10_keypair_dispatch (BuildConfig.mk true false true false false false false)
      (List.range 32) []).2 rfl rfl rfl).1⟩

end PQBrake
